import Mathlib

/-!
Verification of the ecs-goploy task runner (src/deploy/task.go) against its
natural-language specification. The Go code is shallowly embedded: the
polling loop over DescribeTasks responses becomes a function over a finite
stream of poll responses, the three-way select in waitRunning becomes a
function of the first-fired signal, and AWS SDK structures become Lean
structures carrying only the fields the code reads.
-/

namespace Deploy

/-- A container inside an observed ECS task. The Go code reads only the
ExitCode field (a nullable int64), modelled as an optional integer. -/
structure Container where
  exitCode : Option Int
deriving DecidableEq, Repr

/-- An observed ECS task snapshot (ecs.Task). The code reads DesiredStatus
and Containers; LastStatus is carried to state that it is never consulted. -/
structure ECSTask where
  desiredStatus : String
  lastStatus : String
  containers : List Container
deriving DecidableEq, Repr

/-- Embeds checkTaskStopped (task.go lines 187-192): a task counts as
stopped exactly when its DesiredStatus string equals STOPPED. -/
def checkTaskStopped (task : ECSTask) : Bool :=
  if task.desiredStatus ≠ "STOPPED" then false else true

/-- The container loop of checkTaskSucceeded (task.go lines 195-202):
a nil exit code yields (1, false, error), a non-zero exit code yields
(code, false, no error), and an exhausted list yields (0, true, no error). -/
def checkContainers : List Container → Int × Bool × Option String
  | [] => (0, true, none)
  | c :: rest =>
    match c.exitCode with
    | none => (1, false, some "can not read exit code")
    | some code => if code ≠ 0 then (code, false, none) else checkContainers rest

/-- Embeds checkTaskSucceeded (task.go lines 194-204). -/
def checkTaskSucceeded (task : ECSTask) : Int × Bool × Option String :=
  checkContainers task.containers

instance {α β : Type} [DecidableEq α] [DecidableEq β] : DecidableEq (Except α β) := fun a b =>
  match a, b with
  | Except.error x, Except.error y =>
    if h : x = y then isTrue (by rw [h]) else isFalse (by intro hh; cases hh; exact h rfl)
  | Except.error _, Except.ok _ => isFalse (by intro hh; cases hh)
  | Except.ok _, Except.error _ => isFalse (by intro hh; cases hh)
  | Except.ok x, Except.ok y =>
    if h : x = y then isTrue (by rw [h]) else isFalse (by intro hh; cases hh; exact h rfl)

/-- Outcome of one iteration of the retry loop in waitExitTasks: either the
iteration executes continue retry, or the function returns a value. -/
inductive PollOutcome
  | retry
  | ret (r : Except String Unit)
deriving DecidableEq, Repr

/-- The second task loop of waitExitTasks (task.go lines 174-182): for each
task in order, an evaluation error restarts the whole cycle, a failed task
returns its exit code as an error, and an exhausted list returns success. -/
def evalTasks : List ECSTask → PollOutcome
  | [] => PollOutcome.ret (Except.ok ())
  | t :: rest =>
    let r := checkTaskSucceeded t
    if r.2.2.isSome then PollOutcome.retry
    else if !r.2.1 then PollOutcome.ret (Except.error ("exit code: " ++ toString r.1))
    else evalTasks rest

/-- One iteration of the waitExitTasks loop body (task.go lines 159-183)
applied to one DescribeTasks response: an API error is returned, a snapshot
with any non-stopped task restarts the cycle, and otherwise the tasks are
evaluated for success. -/
def pollOnce (resp : Except String (List ECSTask)) : PollOutcome :=
  match resp with
  | Except.error e => PollOutcome.ret (Except.error e)
  | Except.ok tasks =>
    if tasks.all (fun t => checkTaskStopped t) then evalTasks tasks
    else PollOutcome.retry

/-- Embeds the waitExitTasks loop (task.go lines 154-185) run against a
finite stream of DescribeTasks responses, one per loop iteration. The
result is none when the stream is exhausted while the loop is still
retrying, and some r when the function returns r. -/
def waitExitTasks : List (Except String (List ECSTask)) → Option (Except String Unit)
  | [] => none
  | r :: rest =>
    match pollOnce r with
    | PollOutcome.retry => waitExitTasks rest
    | PollOutcome.ret x => some x

/-- Number of DescribeTasks calls waitExitTasks makes against a response
stream: one per loop iteration, stopping at the iteration that returns. -/
def waitExitTasksCalls : List (Except String (List ECSTask)) → Nat
  | [] => 0
  | r :: rest =>
    match pollOnce r with
    | PollOutcome.retry => 1 + waitExitTasksCalls rest
    | PollOutcome.ret _ => 1

/-- Observable events of the waitExitTasks loop body: the fixed sleep at the
top of each iteration (task.go line 157) and the DescribeTasks call. -/
inductive Event
  | sleepSec (n : Nat)
  | describeTasks
deriving DecidableEq, Repr

/-- Event trace of waitExitTasks over a response stream: each iteration, the
first included, emits one five-second sleep followed by one DescribeTasks
call, in the order the Go loop body performs them. -/
def waitExitTasksTrace : List (Except String (List ECSTask)) → List Event
  | [] => []
  | r :: rest =>
    Event.sleepSec 5 :: Event.describeTasks ::
      (match pollOnce r with
       | PollOutcome.retry => waitExitTasksTrace rest
       | PollOutcome.ret _ => [])

/-- The three channels of the select in waitRunning (task.go lines 140-149):
the worker error channel, the worker completion channel, and the context
deadline. The select is embedded as a function of the first-fired signal. -/
inductive SelectSignal
  | workerErr (e : String)
  | workerDone
  | ctxDone
deriving DecidableEq, Repr

/-- Embeds the select of waitRunning: a worker error is returned as is,
worker completion returns success, and the context deadline returns the
process timeout error. -/
def waitRunningSelect : SelectSignal → Except String Unit
  | SelectSignal.workerErr e => Except.error e
  | SelectSignal.workerDone => Except.ok ()
  | SelectSignal.ctxDone => Except.error "process timeout"

/-- Embeds waitRunning (task.go lines 124-152) with the scheduling resolved
by two inputs: whether the deadline fires before the worker delivers, and
the poll-response stream the worker consumes. A worker that never returns
within the stream also ends in the deadline branch. -/
def waitRunning (polls : List (Except String (List ECSTask))) (deadlineFirst : Bool) :
    Except String Unit :=
  if deadlineFirst then Except.error "process timeout"
  else
    match waitExitTasks polls with
    | some (Except.error e) => Except.error e
    | some (Except.ok _) => Except.ok ()
    | none => Except.error "process timeout"

/-- One entry of the Failures list in a RunTask response (ecs.Failure); the
code reads only the Reason field. -/
structure RunTaskFailure where
  reason : String
deriving DecidableEq, Repr

/-- The RunTask API response (ecs.RunTaskOutput): started tasks plus
entity-level failures. -/
structure RunTaskResponse where
  tasks : List ECSTask
  failures : List RunTaskFailure
deriving DecidableEq, Repr

/-- Embeds RunTask (task.go lines 86-121): a transport error is returned
with no tasks, a non-empty Failures list returns the first failure reason
with no tasks, and otherwise the started tasks are returned together with
the waitRunning outcome. The result pairs the returned task list with the
returned error, when any. -/
def RunTask (resp : Except String RunTaskResponse)
    (polls : List (Except String (List ECSTask))) (deadlineFirst : Bool) :
    List ECSTask × Option String :=
  match resp with
  | Except.error e => ([], some e)
  | Except.ok r =>
    match r.failures with
    | f :: _ => ([], some f.reason)
    | [] =>
      match waitRunning polls deadlineFirst with
      | Except.error e => (r.tasks, some e)
      | Except.ok _ => (r.tasks, none)

/-- Number of DescribeTasks calls a RunTask invocation makes: zero on a
transport error and zero on the entity-failure branch, which returns before
waitRunning starts the observation worker. -/
def runTaskDescribeCalls (resp : Except String RunTaskResponse)
    (polls : List (Except String (List ECSTask))) : Nat :=
  match resp with
  | Except.error _ => 0
  | Except.ok r =>
    match r.failures with
    | _ :: _ => 0
    | [] => waitExitTasksCalls polls

/-- The single-quote character, written by code point to keep source plain. -/
def squote : Char := Char.ofNat 39

/-- Modelled from the spec: the Command Tokenizer of section 4.3 (the
go-shellwords dependency used by NewTask is not under src/). Scans the
character list with an accumulated current token, a flag recording whether a
token has started, and escape, single-quote and double-quote states; a
string ending inside an escape or an open quote is unbalanced and fails,
whitespace outside quotes separates tokens, and quoting and backslash
escaping behave as a shell would. -/
def tokenize : List Char → List Char → Bool → Bool → Bool → Bool →
    Except String (List String)
  | [], cur, started, esc, inS, inD =>
    if esc || inS || inD then Except.error "invalid command line string"
    else if started then Except.ok [String.mk cur.reverse]
    else Except.ok []
  | c :: rest, cur, started, esc, inS, inD =>
    if esc then tokenize rest (c :: cur) true false inS inD
    else if inS then
      if c = squote then tokenize rest cur started false false false
      else tokenize rest (c :: cur) true false true false
    else if inD then
      if c = '"' then tokenize rest cur started false false false
      else if c = '\\' then tokenize rest cur started true false true
      else tokenize rest (c :: cur) true false false true
    else if c = '\\' then tokenize rest cur started true false false
    else if c = squote then tokenize rest cur true false true false
    else if c = '"' then tokenize rest cur true false false true
    else if c = ' ' || c = '\t' then
      if started then
        (tokenize rest [] false false false false).map
          (fun ts => String.mk cur.reverse :: ts)
      else tokenize rest [] false false false false
    else tokenize rest (c :: cur) true false false false

/-- Modelled from the spec: shell-style parse of a whole command string,
section 4.3. Empty input yields an empty argument sequence. -/
def shellwordsParse (s : String) : Except String (List String) :=
  tokenize s.data [] false false false false

/-- Splits a character list at every occurrence of a separator, keeping the
pieces in order; the accumulator holds the current piece reversed. -/
def splitOnChar (sep : Char) : List Char → List Char → List String
  | [], cur => [String.mk cur.reverse]
  | c :: rest, cur =>
    if c = sep then String.mk cur.reverse :: splitOnChar sep rest []
    else splitOnChar sep rest (c :: cur)

/-- Modelled from the spec: the Image Reference Parser of section 4.1
(divideImageAndTag is not under src/). Splits at the colon separator,
expecting exactly one, and fails when it is absent or either side is
empty. -/
def divideImageAndTag (imageWithTag : String) : Except String (String × String) :=
  match splitOnChar ':' imageWithTag.data [] with
  | [repo, tag] =>
    if repo.isEmpty || tag.isEmpty then Except.error "malformed image reference"
    else Except.ok (repo, tag)
  | _ => Except.error "malformed image reference"

/-- New image for deploy (the Image struct): repository and tag. -/
structure Image where
  repository : String
  tag : String
deriving DecidableEq, Repr

/-- The Task struct fields NewTask populates that the claims mention. -/
structure Task where
  cluster : String
  name : String
  baseTaskDefinition : String
  newImage : Option Image
  command : List String
  timeout : Nat
deriving DecidableEq, Repr

/-- The image branch of NewTask (task.go lines 51-62): a non-empty
imageWithTag is divided into repository and tag, propagating the error, and
an empty one leaves the new image absent. -/
def parseNewImage (imageWithTag : String) : Except String (Option Image) :=
  if imageWithTag.length > 0 then
    match divideImageAndTag imageWithTag with
    | Except.error e => Except.error e
    | Except.ok (repo, tag) => Except.ok (some (Image.mk repo tag))
  else Except.ok none

/-- Embeds NewTask (task.go lines 45-83): a missing base task definition is
an error, the image string is divided when present, and the command string
is tokenized shell-style with a parse error wrapped with a fixed message. -/
def NewTask (cluster name imageWithTag command : String)
    (baseTaskDefinition : Option String) (timeout : Nat) : Except String Task :=
  match baseTaskDefinition with
  | none => Except.error "task definition is required"
  | some btd =>
    match parseNewImage imageWithTag with
    | Except.error e => Except.error e
    | Except.ok newImage =>
      match shellwordsParse command with
      | Except.error e => Except.error ("Parse error in a task command: " ++ e)
      | Except.ok commands =>
        Except.ok (Task.mk cluster name btd newImage commands timeout)

/-- A container definition inside a task definition (ecs.ContainerDefinition):
the image field the mutator may rewrite, plus an opaque payload standing for
every other field, which the mutator passes through verbatim. -/
structure ContainerDefinition where
  name : String
  image : String
  payload : String
deriving DecidableEq, Repr

/-- Modelled from the spec: the container rewrite of the Task Definition
Mutator, section 4.2 steps 2 and 3 (the mutator source is not under src/).
Each container image is parsed in order, a malformed image is a hard stop,
and the image field is rewritten only for the container whose parsed
repository equals the target repository; per the section 8 mutator property
at most one container changes per call, so the first match is rewritten and
the remaining containers pass through unchanged. -/
def rewriteImage (target : Image) : List ContainerDefinition →
    Except String (List ContainerDefinition)
  | [] => Except.ok []
  | c :: rest =>
    match divideImageAndTag c.image with
    | Except.error e => Except.error e
    | Except.ok (repo, _) =>
      if repo = target.repository then
        Except.ok ({ c with image := target.repository ++ ":" ++ target.tag } :: rest)
      else
        (rewriteImage target rest).map (fun cs => c :: cs)

/-! Helper lemmas shared by the claim theorems. -/

lemma checkContainers_all_zero (cs : List Container)
    (h : ∀ c ∈ cs, c.exitCode = some 0) : checkContainers cs = (0, true, none) := by
  induction cs with
  | nil => rfl
  | cons c rest ih =>
    have hc := h c (List.mem_cons_self c rest)
    simp only [checkContainers, hc]
    simpa using ih (fun d hd => h d (List.mem_cons_of_mem c hd))

lemma checkContainers_succeeded_iff (cs : List Container) :
    (checkContainers cs).2.1 = true ↔ ∀ c ∈ cs, c.exitCode = some 0 := by
  induction cs with
  | nil => simp [checkContainers]
  | cons c rest ih =>
    cases hc : c.exitCode with
    | none => simp [checkContainers, hc]
    | some code =>
      by_cases hz : code = 0
      · subst hz
        simp [checkContainers, hc, ih]
      · simp [checkContainers, hc, hz]

lemma checkContainers_code_ne_zero (cs : List Container) (code : Int)
    (h : checkContainers cs = (code, false, none)) : code ≠ 0 := by
  induction cs with
  | nil => simp [checkContainers] at h
  | cons c rest ih =>
    cases hc : c.exitCode with
    | none => simp [checkContainers, hc] at h
    | some k =>
      by_cases hz : k = 0
      · subst hz
        simp only [checkContainers, hc, ne_eq, not_true_eq_false, if_false,
          decide_False, Bool.false_eq_true, reduceIte] at h
        exact ih h
      · simp only [checkContainers, hc, if_pos hz] at h
        rcases h with ⟨rfl, -⟩
        exact hz

lemma evalTasks_append_pass (pre ts : List ECSTask)
    (h : ∀ u ∈ pre, checkTaskSucceeded u = (0, true, none)) :
    evalTasks (pre ++ ts) = evalTasks ts := by
  induction pre with
  | nil => rfl
  | cons u rest ih =>
    have hu := h u (List.mem_cons_self u rest)
    simp only [List.cons_append, evalTasks, hu]
    simpa using ih (fun v hv => h v (List.mem_cons_of_mem u hv))

lemma mem_zip_self {α : Type} (l : List α) : ∀ p ∈ l.zip l, (p : α × α).2 = p.1 := by
  induction l with
  | nil => intro p hp; simp at hp
  | cons a rest ih =>
    intro p hp
    rw [List.zip_cons_cons, List.mem_cons] at hp
    rcases hp with rfl | hp
    · rfl
    · exact ih p hp

/-! Claim theorems. -/

/-- C1: on each poll, if any task in the snapshot is not terminal, the whole
cycle restarts with continue retry, and no per-task success evaluation
contributes to the outcome of that iteration. -/
theorem pollOnce_retry_of_not_all_stopped (tasks : List ECSTask)
    (h : ∃ t ∈ tasks, checkTaskStopped t = false) :
    pollOnce (Except.ok tasks) = PollOutcome.retry ∧
    ∀ rest, waitExitTasks (Except.ok tasks :: rest) = waitExitTasks rest := by
  obtain ⟨t, ht, hf⟩ := h
  have hall : tasks.all (fun u => checkTaskStopped u) = false := by
    rw [Bool.eq_false_iff]
    intro hc
    rw [List.all_eq_true] at hc
    have := hc t ht
    rw [hf] at this
    exact Bool.false_ne_true this
  refine ⟨by simp [pollOnce, hall], fun rest => ?_⟩
  simp [waitExitTasks, pollOnce, hall]

theorem pollOnce_retry_of_not_all_stopped_witness :
    pollOnce (Except.ok [ECSTask.mk "RUNNING" "RUNNING" [Container.mk (some 5)]]) =
      PollOutcome.retry :=
  (pollOnce_retry_of_not_all_stopped
    [ECSTask.mk "RUNNING" "RUNNING" [Container.mk (some 5)]]
    ⟨ECSTask.mk "RUNNING" "RUNNING" [Container.mk (some 5)], by decide⟩).1

/-- C3 counterexample: a DescribeTasks error is not treated as an
inconclusive poll to be retried; the loop returns it at once, so the error
is surfaced as the overall result. -/
theorem pollOnce_error_not_swallowed_cex :
    pollOnce (Except.error "boom") ≠ PollOutcome.retry ∧
    waitExitTasks [Except.error "boom"] = some (Except.error "boom") :=
  ⟨by simp [pollOnce], rfl⟩

/-- C3 amended: on every poll in which DescribeTasks returns an error, the
observation loop returns immediately, surfacing that error as the overall
result of the run invocation. -/
theorem waitExitTasks_surfaces_describe_error (e : String)
    (rest : List (Except String (List ECSTask))) (ts : List ECSTask) :
    pollOnce (Except.error e) = PollOutcome.ret (Except.error e) ∧
    waitExitTasks (Except.error e :: rest) = some (Except.error e) ∧
    (RunTask (Except.ok (RunTaskResponse.mk ts [])) (Except.error e :: rest) false).2 =
      some e := by
  refine ⟨rfl, rfl, ?_⟩
  simp [RunTask, waitRunning, waitExitTasks, pollOnce]

/-- C7: the waitExitTasks loop polls on a fixed five-second interval: its
event trace is exactly one five-second sleep followed by one DescribeTasks
call per iteration, the first iteration included, with no other sleeps. -/
theorem waitExitTasksTrace_fixed_interval (polls : List (Except String (List ECSTask))) :
    waitExitTasksTrace polls =
      List.flatten (List.replicate (waitExitTasksCalls polls)
        [Event.sleepSec 5, Event.describeTasks]) := by
  induction polls with
  | nil => rfl
  | cons r rest ih =>
    unfold waitExitTasksTrace waitExitTasksCalls
    cases hp : pollOnce r with
    | retry => simp [ih, Nat.add_comm 1, List.replicate_succ]
    | ret x => simp [List.replicate_succ]

/-- C10: a task is classified terminal exactly when its DesiredStatus equals
STOPPED; the last reported status is never consulted; and a stopped task
with zero containers is evaluated as succeeded. -/
theorem checkTaskStopped_desired_status_only :
    (∀ t : ECSTask, checkTaskStopped t = true ↔ t.desiredStatus = "STOPPED") ∧
    (∀ ds ls ls2 cs, checkTaskStopped (ECSTask.mk ds ls cs) =
      checkTaskStopped (ECSTask.mk ds ls2 cs)) ∧
    (∀ ls, waitExitTasks [Except.ok [ECSTask.mk "STOPPED" ls []]] =
      some (Except.ok ())) := by
  refine ⟨fun t => ?_, fun ds ls ls2 cs => rfl, fun ls => rfl⟩
  unfold checkTaskStopped
  split <;> simp_all

/-- C2: once every observed task is terminal, a task counts as succeeded
exactly when every container exit code equals zero; if all tasks pass the
loop returns success, and if the first failing task fails with a non-zero
exit code the loop returns immediately with an error carrying that code. -/
theorem evalTasks_success_iff_zero_exit :
    (∀ t : ECSTask, (checkTaskSucceeded t).2.1 = true ↔
      ∀ c ∈ t.containers, c.exitCode = some 0) ∧
    (∀ tasks rest, tasks.all (fun u => checkTaskStopped u) = true →
      (∀ t ∈ tasks, ∀ c ∈ t.containers, c.exitCode = some 0) →
      waitExitTasks (Except.ok tasks :: rest) = some (Except.ok ())) ∧
    (∀ pre t post code rest,
      ((pre ++ t :: post).all (fun u => checkTaskStopped u)) = true →
      (∀ u ∈ pre, checkTaskSucceeded u = (0, true, none)) →
      checkTaskSucceeded t = (code, false, none) →
      code ≠ 0 ∧
      waitExitTasks (Except.ok (pre ++ t :: post) :: rest) =
        some (Except.error ("exit code: " ++ toString code))) := by
  refine ⟨fun t => checkContainers_succeeded_iff t.containers,
    fun tasks rest hstop hzero => ?_, fun pre t post code rest hstop hpass hfail => ?_⟩
  · have heval : evalTasks tasks = PollOutcome.ret (Except.ok ()) := by
      have : ∀ u ∈ tasks, checkTaskSucceeded u = (0, true, none) := fun u hu =>
        checkContainers_all_zero u.containers (hzero u hu)
      calc evalTasks tasks = evalTasks (tasks ++ []) := by rw [List.append_nil]
        _ = evalTasks [] := evalTasks_append_pass tasks [] this
        _ = PollOutcome.ret (Except.ok ()) := rfl
    simp [waitExitTasks, pollOnce, hstop, heval]
  · refine ⟨checkContainers_code_ne_zero t.containers code hfail, ?_⟩
    have heval : evalTasks (pre ++ t :: post) =
        PollOutcome.ret (Except.error ("exit code: " ++ toString code)) := by
      rw [evalTasks_append_pass pre (t :: post) hpass]
      simp [evalTasks, hfail]
    simp [waitExitTasks, pollOnce, hstop, heval]

theorem evalTasks_success_iff_zero_exit_witness :
    waitExitTasks [Except.ok [ECSTask.mk "STOPPED" "STOPPED" [Container.mk (some 0)]]] =
      some (Except.ok ()) ∧
    ((2 : Int) ≠ 0 ∧
      waitExitTasks [Except.ok ([] ++ ECSTask.mk "STOPPED" "S" [Container.mk (some 2)] :: [])] =
        some (Except.error ("exit code: " ++ toString (2 : Int)))) :=
  ⟨evalTasks_success_iff_zero_exit.2.1
      [ECSTask.mk "STOPPED" "STOPPED" [Container.mk (some 0)]] [] (by decide) (by decide),
    evalTasks_success_iff_zero_exit.2.2
      [] (ECSTask.mk "STOPPED" "S" [Container.mk (some 2)]) [] 2 []
      (by decide) (by simp) (by decide)⟩

/-- C4: the run path result is decided by whichever of the worker error,
worker completion and context deadline fires first; when the deadline fires
before the observation worker delivers, the run returns the process timeout
error regardless of the poll stream. -/
theorem runTask_timeout_signal_spec :
    (∀ ts polls, (RunTask (Except.ok (RunTaskResponse.mk ts [])) polls true).2 =
      some "process timeout") ∧
    (∀ ts polls, waitExitTasks polls = none →
      (RunTask (Except.ok (RunTaskResponse.mk ts [])) polls false).2 =
        some "process timeout") ∧
    waitRunningSelect SelectSignal.ctxDone = Except.error "process timeout" ∧
    (∀ e, waitRunningSelect (SelectSignal.workerErr e) = Except.error e) ∧
    waitRunningSelect SelectSignal.workerDone = Except.ok () := by
  refine ⟨fun ts polls => ?_, fun ts polls h => ?_, rfl, fun e => rfl, rfl⟩
  · simp [RunTask, waitRunning]
  · simp [RunTask, waitRunning, h]

theorem runTask_timeout_signal_spec_witness :
    (RunTask (Except.ok (RunTaskResponse.mk [] [])) [] false).2 =
      some "process timeout" :=
  runTask_timeout_signal_spec.2.1 [] [] rfl

/-- C5: a RunTask response carrying entity-level failures makes RunTask
return at once with the first failure reason, and no DescribeTasks call is
ever made for that invocation. -/
theorem runTask_failures_no_polling (r : RunTaskResponse) (f : RunTaskFailure)
    (fs : List RunTaskFailure) (h : r.failures = f :: fs) :
    ∀ polls deadlineFirst,
      RunTask (Except.ok r) polls deadlineFirst = ([], some f.reason) ∧
      runTaskDescribeCalls (Except.ok r) polls = 0 := by
  intro polls deadlineFirst
  constructor <;> simp [RunTask, runTaskDescribeCalls, h]

theorem runTask_failures_no_polling_witness :
    RunTask (Except.ok (RunTaskResponse.mk [] [RunTaskFailure.mk "no capacity"]))
        [Except.error "x"] false = ([], some "no capacity") ∧
    runTaskDescribeCalls (Except.ok (RunTaskResponse.mk [] [RunTaskFailure.mk "no capacity"]))
        [Except.error "x"] = 0 :=
  runTask_failures_no_polling (RunTaskResponse.mk [] [RunTaskFailure.mk "no capacity"])
    (RunTaskFailure.mk "no capacity") [] rfl [Except.error "x"] false

/-- C6: when all tasks are terminal and the per-task result read of the
first task reached with an absent container exit code fails, the poll does
not fail the invocation: the whole cycle restarts and evaluation is retried
on the next tick. -/
theorem evalTasks_retry_on_missing_exit_code (pre : List ECSTask) (t : ECSTask)
    (post : List ECSTask)
    (h1 : ((pre ++ t :: post).all (fun u => checkTaskStopped u)) = true)
    (h2 : ∀ u ∈ pre, checkTaskSucceeded u = (0, true, none))
    (h3 : (checkTaskSucceeded t).2.2.isSome = true) :
    pollOnce (Except.ok (pre ++ t :: post)) = PollOutcome.retry ∧
    ∀ rest, waitExitTasks (Except.ok (pre ++ t :: post) :: rest) = waitExitTasks rest := by
  have heval : evalTasks (pre ++ t :: post) = PollOutcome.retry := by
    rw [evalTasks_append_pass pre (t :: post) h2]
    simp [evalTasks, h3]
  refine ⟨by simp [pollOnce, h1, heval], fun rest => ?_⟩
  simp [waitExitTasks, pollOnce, h1, heval]

theorem evalTasks_retry_on_missing_exit_code_witness :
    pollOnce (Except.ok ([] ++ ECSTask.mk "STOPPED" "S" [Container.mk none] :: [])) =
      PollOutcome.retry :=
  (evalTasks_retry_on_missing_exit_code [] (ECSTask.mk "STOPPED" "S" [Container.mk none]) []
    (by decide) (by simp) (by decide)).1

/-- C8: task construction tokenizes the command string shell-style: an
empty command yields an empty argument sequence (no override), a tokenizer
failure on unbalanced quoting fails construction with a wrapped parse
error, and otherwise the tokens become the command vector of the task. -/
theorem newTask_command_tokenization :
    (∀ cluster nm btd timeout, NewTask cluster nm "" "" (some btd) timeout =
      Except.ok (Task.mk cluster nm btd none [] timeout)) ∧
    (∀ cluster nm btd timeout cmd e, shellwordsParse cmd = Except.error e →
      NewTask cluster nm "" cmd (some btd) timeout =
        Except.error ("Parse error in a task command: " ++ e)) ∧
    (∀ cluster nm btd timeout cmd cs, shellwordsParse cmd = Except.ok cs →
      NewTask cluster nm "" cmd (some btd) timeout =
        Except.ok (Task.mk cluster nm btd none cs timeout)) := by
  refine ⟨fun cluster nm btd timeout => rfl,
    fun cluster nm btd timeout cmd e h => ?_,
    fun cluster nm btd timeout cmd cs h => ?_⟩
  · simp [NewTask, parseNewImage, h]
  · simp [NewTask, parseNewImage, h]

theorem newTask_command_tokenization_witness :
    NewTask "c" "n" "" "echo hello" (some "td") 300 =
      Except.ok (Task.mk "c" "n" "td" none ["echo", "hello"] 300) ∧
    NewTask "c" "n" "" "\"abc" (some "td") 300 =
      Except.error ("Parse error in a task command: " ++ "invalid command line string") :=
  ⟨newTask_command_tokenization.2.2 "c" "n" "td" 300 "echo hello" ["echo", "hello"] rfl,
    newTask_command_tokenization.2.1 "c" "n" "td" 300 "\"abc"
      "invalid command line string" rfl⟩

/-- C9: for any base container list the mutator keeps, the rewritten list
has the same length, every container whose parsed repository does not match
the target is byte-identical to its original, and at most one container
changes per mutation call. -/
theorem rewriteImage_frame_properties (target : Image)
    (cs cs2 : List ContainerDefinition) (h : rewriteImage target cs = Except.ok cs2) :
    cs2.length = cs.length ∧
    (∀ p ∈ cs.zip cs2,
      (∀ repo tag, divideImageAndTag (p : ContainerDefinition × ContainerDefinition).1.image =
        Except.ok (repo, tag) → repo ≠ target.repository) → p.2 = p.1) ∧
    (cs.zip cs2).countP (fun p => decide (p.2 ≠ p.1)) ≤ 1 := by
  induction cs generalizing cs2 with
  | nil =>
    simp only [rewriteImage] at h
    cases h
    simp
  | cons c rest ih =>
    cases hd : divideImageAndTag c.image with
    | error e => simp [rewriteImage, hd] at h
    | ok rt =>
      obtain ⟨repo, tag⟩ := rt
      by_cases hrepo : repo = target.repository
      · simp only [rewriteImage, hd, if_pos hrepo, Except.ok.injEq] at h
        subst h
        refine ⟨by simp, ?_, ?_⟩
        · intro p hp hne
          rw [List.zip_cons_cons, List.mem_cons] at hp
          rcases hp with rfl | hp
          · exact absurd hrepo (hne repo tag hd)
          · exact mem_zip_self rest p hp
        · rw [List.zip_cons_cons, List.countP_cons]
          have hz : (rest.zip rest).countP (fun p => decide (p.2 ≠ p.1)) = 0 := by
            rw [List.countP_eq_zero]
            intro p hp
            simp [mem_zip_self rest p hp]
          rw [hz]
          split <;> simp
      · simp only [rewriteImage, hd, if_neg hrepo] at h
        cases hr : rewriteImage target rest with
        | error e => rw [hr] at h; simp [Except.map] at h
        | ok rest2 =>
          rw [hr] at h
          simp only [Except.map, Except.ok.injEq] at h
          subst h
          obtain ⟨ihl, ihf, ihc⟩ := ih rest2 hr
          refine ⟨by simp [ihl], ?_, ?_⟩
          · intro p hp hne
            rw [List.zip_cons_cons, List.mem_cons] at hp
            rcases hp with rfl | hp
            · rfl
            · exact ihf p hp hne
          · rw [List.zip_cons_cons, List.countP_cons]
            simpa using ihc

theorem rewriteImage_frame_properties_witness :
    rewriteImage (Image.mk "repo/app" "v2")
        [ContainerDefinition.mk "app" "repo/app:v1" "p",
          ContainerDefinition.mk "side" "other:1" "q"] =
      Except.ok [ContainerDefinition.mk "app" "repo/app:v2" "p",
        ContainerDefinition.mk "side" "other:1" "q"] ∧
    ([ContainerDefinition.mk "app" "repo/app:v1" "p",
        ContainerDefinition.mk "side" "other:1" "q"].zip
      [ContainerDefinition.mk "app" "repo/app:v2" "p",
        ContainerDefinition.mk "side" "other:1" "q"]).countP
        (fun p => decide (p.2 ≠ p.1)) ≤ 1 :=
  ⟨by decide,
    (rewriteImage_frame_properties (Image.mk "repo/app" "v2")
      [ContainerDefinition.mk "app" "repo/app:v1" "p",
        ContainerDefinition.mk "side" "other:1" "q"]
      [ContainerDefinition.mk "app" "repo/app:v2" "p",
        ContainerDefinition.mk "side" "other:1" "q"] (by decide)).2.2⟩

end Deploy
